import Mathlib

/-!
Verification of the mongoose `examples/uart-bridge` byte bridge (`net.c`).

The development shallowly embeds the bridge logic:
* MQTT topic resolution (`mqtt_rx_topic`, `mqtt_tx_topic`, net.c lines 80-90),
* the periodic timer tick (`timer_fn`, net.c lines 108-135): transport
  healing and serial fan-out,
* the per-transport event handlers (`ws_fn`, `tcp_fn`, `mq_fn`).

C strings become `List Char`; byte buffers become `List Nat`; the side
effects of the networking substrate (sends, subscribes, UART writes) become
explicit `Action` values; connection handles become `Option Nat`.
-/

namespace UartBridge

/-- Index of the first occurrence of `ch` in `s`, mirroring C `strchr`
(which returns a pointer to the first matching character, or NULL). -/
def firstIdxOf : List Char → Char → Option Nat
  | [], _ => none
  | c :: cs, ch =>
    if c = ch then some 0 else (firstIdxOf cs ch).map (· + 1)

/-- Index of the last occurrence of `ch` in `s`, mirroring C `strrchr`
(which returns a pointer to the last matching character, or NULL). -/
def lastIdxOf : List Char → Char → Option Nat
  | [], _ => none
  | c :: cs, ch =>
    match lastIdxOf cs ch with
    | some i => some (i + 1)
    | none => if c = ch then some 0 else none

/-- Number of occurrences of `ch` in `s` (spec-side counting helper). -/
def countCh : List Char → Char → Nat
  | [], _ => 0
  | c :: cs, ch => (if c = ch then 1 else 0) + countCh cs ch

/-- Embeds `mqtt_rx_topic` (net.c lines 81-84):
`p = strrchr(url, ',')` and then `mg_str(p ? p : "b/rx")`.
`mg_str(p)` is the NUL-terminated suffix starting AT `p`, i.e. the suffix
of the url beginning at the last comma (comma included). -/
def mqtt_rx_topic (url : List Char) : List Char :=
  match lastIdxOf url ',' with
  | some i => url.drop i
  | none => "b/rx".toList

/-- Embeds `mqtt_tx_topic` (net.c lines 87-90):
`p1 = strchr(url, ',')`, `p2 = strrchr(url, ',')`, then
`mg_str_n(p1 && p2 ? p1 : "b/tx", p1 && p2 ? p2 - p1 + 1 : 4)`:
when both commas exist, the substring starting at the first comma of
length `p2 - p1 + 1` (so first comma through last comma, both included),
otherwise the 4-character default `"b/tx"`. -/
def mqtt_tx_topic (url : List Char) : List Char :=
  match firstIdxOf url ',', lastIdxOf url ',' with
  | some i, some j => (url.drop i).take (j - i + 1)
  | _, _ => "b/tx".toList

/-- Embeds `struct endpoint` (net.c lines 10-14): a URL, an enable flag and
a nullable connection handle (`struct mg_connection *c`).  Handles are
modelled as opaque numbers; `none` is the NULL pointer. -/
structure Endpoint where
  url : List Char
  enable : Bool
  c : Option Nat
deriving DecidableEq, Repr

/-- Embeds `struct state` (net.c lines 16-18): the three per-transport
endpoint records (the pin/baud fields play no role in the claims). -/
structure SState where
  tcp : Endpoint
  websocket : Endpoint
  mqtt : Endpoint
deriving DecidableEq, Repr

/-- The transport-specific start operation issued by the healing step in
`timer_fn` (net.c lines 112-121): `mg_listen`, `mg_http_listen`, or
`mg_mqtt_connect`. -/
inductive StartAttempt where
  | tcpListen
  | httpListen
  | mqttConnect
deriving DecidableEq, Repr

/-- Counts occurrences of a start attempt in a list (spec-side helper). -/
def countA : List StartAttempt → StartAttempt → Nat
  | [], _ => 0
  | a :: rest, b => (if a = b then 1 else 0) + countA rest b

/-- The healing pattern shared by the three `if` blocks of `timer_fn`
(net.c lines 112-121): if the endpoint's connection is NULL and it is
enabled, issue the start operation and store the handle the substrate
returns (`fresh`, possibly NULL on failure); otherwise do nothing. -/
def ensureEp (e : Endpoint) (fresh : Option Nat) (a : StartAttempt) :
    Endpoint × List StartAttempt :=
  if e.c = none ∧ e.enable then ({ e with c := fresh }, [a]) else (e, [])

/-- The healing step of `timer_fn` (net.c lines 110-121): restart the TCP
listener, the WebSocket/HTTP listener and the MQTT client connection when
they are down.  `freshT`, `freshW`, `freshM` are the handles the substrate
returns from `mg_listen` / `mg_http_listen` / `mg_mqtt_connect`. -/
def heal (st : SState) (freshT freshW freshM : Option Nat) :
    SState × List StartAttempt :=
  let tcpR := ensureEp st.tcp freshT StartAttempt.tcpListen
  let wsR := ensureEp st.websocket freshW StartAttempt.httpListen
  let mqR := ensureEp st.mqtt freshM StartAttempt.mqttConnect
  ({ tcp := tcpR.1, websocket := wsR.1, mqtt := mqR.1 },
   tcpR.2 ++ wsR.2 ++ mqR.2)

/-- One event in the life of a single endpoint record: a healing tick
(with the handle the substrate would return for a start attempt), or the
close notification that clears the stored handle (net.c lines 61, 75, 103). -/
inductive EpEvent where
  | tick (fresh : Option Nat)
  | closeEvt
deriving DecidableEq, Repr

/-- Effect of one `EpEvent` on one endpoint record: a tick runs the
healing check for that endpoint; a close event sets `c` to NULL. -/
def stepEp (e : Endpoint) (a : StartAttempt) : EpEvent → Endpoint × List StartAttempt
  | EpEvent.tick fresh => ensureEp e fresh a
  | EpEvent.closeEvt => ({ e with c := none }, [])

/-- Runs a sequence of endpoint events, collecting all start attempts. -/
def runEp (e : Endpoint) (a : StartAttempt) : List EpEvent → Endpoint × List StartAttempt
  | [] => (e, [])
  | ev :: evs =>
    let r1 := stepEp e a ev
    let r2 := runEp r1.1 a evs
    (r2.1, r1.2 ++ r2.2)

/-- Embeds the per-connection data of `struct mg_connection` that net.c
touches: the transport tag `label[0]` (`'W'`, `'T'`, `'M'`, or the zero
character while unset), the `is_listening` flag, and the receive buffer
`recv` (its byte content; `recv.len = 0` becomes the empty list). -/
structure Conn where
  label : Char
  is_listening : Bool
  recv : List Nat
deriving DecidableEq, Repr

/-- `WEBSOCKET_OP_TEXT` (mongoose websocket text frame opcode). -/
def WEBSOCKET_OP_TEXT : Nat := 1

/-- Observable side effects issued by the handlers and the timer:
`mg_ws_upgrade`, `mg_ws_send`, `mg_send`, `mg_mqtt_pub`, `mg_mqtt_sub`
and `uart_write`. -/
inductive Action where
  | wsUpgrade
  | wsSend (data : List Nat) (op : Nat)
  | tcpSend (data : List Nat)
  | mqttPub (topic : List Char) (data : List Nat) (qos : Nat) (retain : Bool)
  | mqttSub (topic : List Char) (qos : Nat)
  | uartWrite (data : List Nat)
deriving DecidableEq, Repr

/-- The substrate events that the three handlers in net.c dispatch on:
`MG_EV_HTTP_MSG`, `MG_EV_WS_OPEN`, `MG_EV_WS_MSG`, `MG_EV_OPEN`,
`MG_EV_READ`, `MG_EV_MQTT_OPEN`, `MG_EV_MQTT_MSG`, `MG_EV_CLOSE`.
Data-carrying events carry their payload bytes. -/
inductive Event where
  | httpMsg
  | wsOpen
  | wsMsg (data : List Nat)
  | evOpen
  | evRead
  | mqttOpen
  | mqttMsg (data : List Nat)
  | evClose
deriving DecidableEq, Repr

/-- Embeds `ws_fn` (net.c lines 50-64): upgrade on HTTP request, tag `'W'`
when the WS handshake completes, forward WS message payloads to the UART
and discard the receive buffer, clear the websocket endpoint handle when
the listening connection closes. -/
def ws_fn (c : Conn) (st : SState) : Event → Conn × SState × List Action
  | Event.httpMsg => (c, st, [Action.wsUpgrade])
  | Event.wsOpen => ({ c with label := 'W' }, st, [])
  | Event.wsMsg d => ({ c with recv := [] }, st, [Action.uartWrite d])
  | Event.evClose =>
    (c,
     if c.is_listening then
       { st with websocket := { st.websocket with c := none } }
     else st,
     [])
  | _ => (c, st, [])

/-- Embeds `tcp_fn` (net.c lines 67-78): tag `'T'` on `MG_EV_OPEN`
(note: with no check of `is_listening`), forward the receive buffer to the
UART on `MG_EV_READ` and discard it, clear the tcp endpoint handle when
the listening connection closes. -/
def tcp_fn (c : Conn) (st : SState) : Event → Conn × SState × List Action
  | Event.evOpen => ({ c with label := 'T' }, st, [])
  | Event.evRead => ({ c with recv := [] }, st, [Action.uartWrite c.recv])
  | Event.evClose =>
    (c,
     if c.is_listening then
       { st with tcp := { st.tcp with c := none } }
     else st,
     [])
  | _ => (c, st, [])

/-- Embeds `mq_fn` (net.c lines 93-106): tag `'M'` on `MG_EV_OPEN`,
subscribe to the resolved RX topic at QoS 1 on `MG_EV_MQTT_OPEN`, forward
MQTT message payloads to the UART on `MG_EV_MQTT_MSG` (note: without
touching `recv`), clear the mqtt endpoint handle on close. -/
def mq_fn (c : Conn) (st : SState) : Event → Conn × SState × List Action
  | Event.evOpen => ({ c with label := 'M' }, st, [])
  | Event.mqttOpen => (c, st, [Action.mqttSub (mqtt_rx_topic st.mqtt.url) 1])
  | Event.mqttMsg d => (c, st, [Action.uartWrite d])
  | Event.evClose =>
    (c, { st with mqtt := { st.mqtt with c := none } }, [])
  | _ => (c, st, [])

/-- The per-connection fan-out of the timer loop (net.c lines 128-133):
three independent `if`s on `c->label[0]` choosing the send encoding, with
the MQTT publish going to the resolved TX topic at QoS 1, non-retained. -/
def sendsFor (mqttUrl : List Char) (buf : List Nat) (c : Conn) : List Action :=
  (if c.label = 'W' then [Action.wsSend buf WEBSOCKET_OP_TEXT] else []) ++
  (if c.label = 'T' then [Action.tcpSend buf] else []) ++
  (if c.label = 'M' then
     [Action.mqttPub (mqtt_tx_topic mqttUrl) buf 1 false]
   else [])

/-- Embeds `timer_fn` (net.c lines 109-135): heal the three transports,
then read the UART (the read result is the environment input `len` with
buffer contents `buf`), and if `len > 0` fan the bytes out to every
connection of the manager according to its tag. -/
def timer_fn (st : SState) (freshT freshW freshM : Option Nat)
    (conns : List Conn) (len : Int) (buf : List Nat) :
    SState × List StartAttempt × List Action :=
  let healed := heal st freshT freshW freshM
  let sends :=
    if 0 < len then conns.flatMap (sendsFor healed.1.mqtt.url buf) else []
  (healed.1, healed.2, sends)

/-- Modelled from the spec: the listening connection created by the
substrate's `mg_listen` is not part of src/ (mongoose's core is external
here).  Per the spec's lifecycle — "a ConnectionHandle is created by the
substrate on successful listen-accept/connect" and "On listener/connection
open: tag the connection with its transport kind" — the substrate delivers
`MG_EV_OPEN` to the fresh listening connection, which starts with its
listening flag set, no transport tag (label zeroed) and an empty receive
buffer. -/
def listenerConn : Conn :=
  { label := Char.ofNat 0, is_listening := true, recv := [] }

/-- A concrete bridge state used to instantiate the theorems: TCP down and
enabled, WebSocket up (handle 2), MQTT up (handle 3) with a comma-carrying
address. -/
def sampleState : SState :=
  { tcp := { url := "tcp://0.0.0.0:4001".toList, enable := true, c := none },
    websocket := { url := "ws://0.0.0.0:4002".toList, enable := true, c := some 2 },
    mqtt := { url := "mqtt://host:1883,topic/tx,topic/rx".toList,
              enable := true, c := some 3 } }

/-- A concrete disabled endpoint that is still holding a handle (it was up
before being disabled). -/
def disabledEp : Endpoint :=
  { url := "tcp://0.0.0.0:4001".toList, enable := false, c := some 5 }

/-! ### Helper lemmas about the index-search functions -/

theorem lastIdxOf_eq_none {s : List Char} {ch : Char}
    (h : lastIdxOf s ch = none) : ch ∉ s := by
  induction s with
  | nil => simp
  | cons c cs ih =>
    cases hcs : lastIdxOf cs ch with
    | some i => simp [lastIdxOf, hcs] at h
    | none =>
      simp only [lastIdxOf, hcs] at h
      by_cases hc : c = ch
      · simp [hc] at h
      · intro hmem
        rcases List.mem_cons.mp hmem with h1 | h2
        · exact hc h1.symm
        · exact ih hcs h2

theorem mem_lastIdxOf_isSome {s : List Char} {ch : Char} (hm : ch ∈ s) :
    ∃ i, lastIdxOf s ch = some i := by
  cases h : lastIdxOf s ch with
  | none => exact absurd hm (lastIdxOf_eq_none h)
  | some i => exact ⟨i, rfl⟩

theorem head_drop_lastIdxOf {s : List Char} {ch : Char} {i : Nat}
    (h : lastIdxOf s ch = some i) : (s.drop i).head? = some ch := by
  induction s generalizing i with
  | nil => simp [lastIdxOf] at h
  | cons c cs ih =>
    cases hcs : lastIdxOf cs ch with
    | some j =>
      simp only [lastIdxOf, hcs, Option.some.injEq] at h
      subst h
      simpa using ih hcs
    | none =>
      by_cases hc : c = ch
      · simp only [lastIdxOf, hcs, hc, if_true, Option.some.injEq] at h
        subst h
        simp [hc]
      · simp [lastIdxOf, hcs, hc] at h

theorem not_mem_drop_lastIdxOf {s : List Char} {ch : Char} {i : Nat}
    (h : lastIdxOf s ch = some i) : ch ∉ s.drop (i + 1) := by
  induction s generalizing i with
  | nil => simp [lastIdxOf] at h
  | cons c cs ih =>
    cases hcs : lastIdxOf cs ch with
    | some j =>
      simp only [lastIdxOf, hcs, Option.some.injEq] at h
      subst h
      simpa using ih hcs
    | none =>
      by_cases hc : c = ch
      · simp only [lastIdxOf, hcs, hc, if_true, Option.some.injEq] at h
        subst h
        simpa using lastIdxOf_eq_none hcs
      · simp [lastIdxOf, hcs, hc] at h

theorem head_drop_firstIdxOf {s : List Char} {ch : Char} {i : Nat}
    (h : firstIdxOf s ch = some i) : (s.drop i).head? = some ch := by
  induction s generalizing i with
  | nil => simp [firstIdxOf] at h
  | cons c cs ih =>
    by_cases hc : c = ch
    · simp only [firstIdxOf, hc, if_true, Option.some.injEq] at h
      subst h
      simp [hc]
    · simp only [firstIdxOf, hc, if_false, Option.map_eq_some'] at h
      rcases h with ⟨j, hj, hji⟩
      subst hji
      simpa using ih hj

theorem countCh_zero_lastIdxOf {s : List Char} {ch : Char}
    (h : countCh s ch = 0) : lastIdxOf s ch = none := by
  induction s with
  | nil => rfl
  | cons c cs ih =>
    by_cases hc : c = ch
    · simp [countCh, hc] at h
    · simp only [countCh, hc, if_false, Nat.zero_add] at h
      simp only [lastIdxOf, ih h]
      simp [hc]

theorem countCh_one_idx {s : List Char} {ch : Char}
    (h : countCh s ch = 1) :
    ∃ i, firstIdxOf s ch = some i ∧ lastIdxOf s ch = some i := by
  induction s with
  | nil => simp [countCh] at h
  | cons c cs ih =>
    by_cases hc : c = ch
    · simp only [countCh, hc, if_true] at h
      have hcs0 : countCh cs ch = 0 := by omega
      refine ⟨0, ?_, ?_⟩
      · simp [firstIdxOf, hc]
      · simp [lastIdxOf, countCh_zero_lastIdxOf hcs0, hc]
    · simp only [countCh, hc, if_false, Nat.zero_add] at h
      rcases ih h with ⟨i, h1, h2⟩
      refine ⟨i + 1, ?_, ?_⟩
      · simp [firstIdxOf, hc, h1]
      · simp [lastIdxOf, h2]

/-! ### Helper lemmas about healing and fan-out -/

theorem ensureEp_url (e : Endpoint) (fresh : Option Nat) (a : StartAttempt) :
    (ensureEp e fresh a).1.url = e.url := by
  unfold ensureEp
  split <;> rfl

theorem heal_mqtt_url (st : SState) (freshT freshW freshM : Option Nat) :
    (heal st freshT freshW freshM).1.mqtt.url = st.mqtt.url := by
  simp [heal, ensureEp_url]

theorem sendsFor_cases (u : List Char) (b : List Nat) (c : Conn) :
    sendsFor u b c =
      if c.label = 'W' then [Action.wsSend b WEBSOCKET_OP_TEXT]
      else if c.label = 'T' then [Action.tcpSend b]
      else if c.label = 'M' then
        [Action.mqttPub (mqtt_tx_topic u) b 1 false]
      else [] := by
  by_cases hW : c.label = 'W' <;> by_cases hT : c.label = 'T' <;>
    by_cases hM : c.label = 'M' <;> simp_all [sendsFor]

theorem countA_append (l1 l2 : List StartAttempt) (a : StartAttempt) :
    countA (l1 ++ l2) a = countA l1 a + countA l2 a := by
  induction l1 with
  | nil => simp [countA]
  | cons x xs ih => simp [countA, ih]; omega

theorem stepEp_enable (e : Endpoint) (a : StartAttempt) (ev : EpEvent) :
    ((stepEp e a ev).1).enable = e.enable := by
  cases ev with
  | tick fresh =>
    simp only [stepEp]
    unfold ensureEp
    split <;> rfl
  | closeEvt => rfl

theorem ensureEp_down (e : Endpoint) (fresh : Option Nat) (a : StartAttempt)
    (he : e.enable = true) (hc : e.c = none) :
    ensureEp e fresh a = ({ e with c := fresh }, [a]) := by
  simp [ensureEp, hc, he]

theorem ensureEp_up (e : Endpoint) (fresh : Option Nat) (a : StartAttempt)
    (hc : e.c ≠ none) :
    ensureEp e fresh a = (e, []) := by
  simp [ensureEp, hc]

theorem countA_ensureEp_ne (e : Endpoint) (fresh : Option Nat)
    (a b : StartAttempt) (hne : a ≠ b) :
    countA (ensureEp e fresh a).2 b = 0 := by
  unfold ensureEp
  split <;> simp [countA, hne]

/-! ### Claims -/

/-- Claim C1: for every serial read of length `len > 0` in one tick, the
broadcast step sends exactly the read bytes to every connection whose
transport tag is set, encoded per tag — a `'W'`-tagged connection receives
one websocket text-framed message, a `'T'`-tagged connection one raw
stream write, an `'M'`-tagged connection one publish to the resolved TX
topic at QoS 1, non-retained — and a connection with no tag set receives
nothing. -/
theorem claim1_fanout (st : SState) (freshT freshW freshM : Option Nat)
    (conns : List Conn) (len : Int) (buf : List Nat) (h : 0 < len) :
    (timer_fn st freshT freshW freshM conns len buf).2.2 =
      conns.flatMap (fun c =>
        if c.label = 'W' then [Action.wsSend buf WEBSOCKET_OP_TEXT]
        else if c.label = 'T' then [Action.tcpSend buf]
        else if c.label = 'M' then
          [Action.mqttPub (mqtt_tx_topic st.mqtt.url) buf 1 false]
        else []) := by
  simp only [timer_fn, if_pos h, heal_mqtt_url]
  have hfun : sendsFor st.mqtt.url buf = fun c =>
      if c.label = 'W' then [Action.wsSend buf WEBSOCKET_OP_TEXT]
      else if c.label = 'T' then [Action.tcpSend buf]
      else if c.label = 'M' then
        [Action.mqttPub (mqtt_tx_topic st.mqtt.url) buf 1 false]
      else [] :=
    funext fun c => sendsFor_cases st.mqtt.url buf c
  rw [hfun]

/-- Witness for C1 at a concrete input: a tick with read length 1 and byte
42 over a `'T'`-tagged, a `'W'`-tagged and an untagged connection. -/
theorem claim1_fanout_w :
    (timer_fn sampleState none none none
        [{ label := 'T', is_listening := false, recv := [] },
         { label := 'W', is_listening := false, recv := [] },
         { label := Char.ofNat 0, is_listening := false, recv := [] }]
        1 [42]).2.2 =
      [Action.tcpSend [42], Action.wsSend [42] WEBSOCKET_OP_TEXT] :=
  (claim1_fanout sampleState none none none
    [{ label := 'T', is_listening := false, recv := [] },
     { label := 'W', is_listening := false, recv := [] },
     { label := Char.ofNat 0, is_listening := false, recv := [] }]
    1 [42] (by decide)).trans (by decide)

/-- Claim C2 counterexample: for the address
`"mqtt://host:1883,topic/tx,topic/rx"` the code's resolved RX topic is
`",topic/rx"` (the suffix starting AT the last comma), not the claimed
`"topic/rx"` (the text after the last comma). -/
theorem claim2_cex :
    mqtt_rx_topic "mqtt://host:1883,topic/tx,topic/rx".toList ≠
      "topic/rx".toList ∧
    mqtt_rx_topic "mqtt://host:1883,topic/tx,topic/rx".toList =
      ",topic/rx".toList := by
  constructor <;> decide

/-- Claim C2 (amended): if the address contains a comma, the resolved RX
topic is the suffix of the address starting at the last comma, with the
comma included (a suffix that begins with a comma and contains no further
comma after it); if the address contains no comma, the RX topic is the
default `"b/rx"`. -/
theorem claim2_rx_topic (url : List Char) :
    (',' ∈ url →
      ∃ pre, url = pre ++ mqtt_rx_topic url ∧
        (mqtt_rx_topic url).head? = some ',' ∧
        ',' ∉ (mqtt_rx_topic url).drop 1) ∧
    (',' ∉ url → mqtt_rx_topic url = "b/rx".toList) := by
  constructor
  · intro hm
    rcases mem_lastIdxOf_isSome hm with ⟨i, hi⟩
    have hrx : mqtt_rx_topic url = url.drop i := by
      simp [mqtt_rx_topic, hi]
    refine ⟨url.take i, ?_, ?_, ?_⟩
    · rw [hrx, List.take_append_drop]
    · rw [hrx]
      exact head_drop_lastIdxOf hi
    · rw [hrx]
      have hdd : (url.drop i).drop 1 = url.drop (i + 1) := by
        rw [List.drop_drop, Nat.add_comm]
      rw [hdd]
      exact not_mem_drop_lastIdxOf hi
  · intro hm
    cases hl : lastIdxOf url ',' with
    | none => simp [mqtt_rx_topic, hl]
    | some i =>
      exfalso
      have hd := head_drop_lastIdxOf hl
      cases hdrop : url.drop i with
      | nil => rw [hdrop] at hd; simp at hd
      | cons a t =>
        rw [hdrop] at hd
        simp only [List.head?_cons, Option.some.injEq] at hd
        subst hd
        refine hm (List.mem_of_mem_drop (l := url) (n := i) ?_)
        rw [hdrop]
        exact List.mem_cons_self ',' t

/-- Witness for C2 (amended) at concrete inputs: the comma-carrying example
address and the comma-free default-style address. -/
theorem claim2_rx_topic_w :
    (∃ pre, "mqtt://host:1883,topic/tx,topic/rx".toList =
        pre ++ mqtt_rx_topic "mqtt://host:1883,topic/tx,topic/rx".toList ∧
      (mqtt_rx_topic "mqtt://host:1883,topic/tx,topic/rx".toList).head? =
        some ',' ∧
      ',' ∉ (mqtt_rx_topic "mqtt://host:1883,topic/tx,topic/rx".toList).drop 1) ∧
    mqtt_rx_topic "mqtt://host:1883".toList = "b/rx".toList :=
  ⟨(claim2_rx_topic "mqtt://host:1883,topic/tx,topic/rx".toList).1 (by decide),
   (claim2_rx_topic "mqtt://host:1883".toList).2 (by decide)⟩

/-- Claim C3 counterexample: for the address
`"mqtt://host:1883,topic/tx,topic/rx"` the code's resolved TX topic is
`",topic/tx,"` — first comma through last comma, both included — not the
claimed `"topic/tx,topic/rx"`. -/
theorem claim3_cex :
    mqtt_tx_topic "mqtt://host:1883,topic/tx,topic/rx".toList ≠
      "topic/tx,topic/rx".toList := by
  decide

/-- Claim C3 (amended): for the MQTT address string
`"mqtt://host:1883,topic/tx,topic/rx"`, the resolved TX topic is the
string `",topic/tx,"`: when both a first and a last comma exist, the TX
topic is the substring from the first comma through the last comma, both
commas included. -/
theorem claim3_tx_topic :
    mqtt_tx_topic "mqtt://host:1883,topic/tx,topic/rx".toList =
      ",topic/tx,".toList := by
  decide

/-- Claim C4: on every tick, for each of the three transports — TCP,
WebSocket, MQTT — if the transport is enabled and its connection handle is
null, the healing step issues exactly one start attempt for it and stores
the returned handle; if its connection handle is non-null, no start
attempt is issued for it and the handle is left unchanged. -/
theorem claim4_ensure_up (st : SState) (freshT freshW freshM : Option Nat) :
    ((st.tcp.enable = true → st.tcp.c = none →
        countA (heal st freshT freshW freshM).2 StartAttempt.tcpListen = 1 ∧
        (heal st freshT freshW freshM).1.tcp.c = freshT) ∧
     (st.tcp.c ≠ none →
        countA (heal st freshT freshW freshM).2 StartAttempt.tcpListen = 0 ∧
        (heal st freshT freshW freshM).1.tcp.c = st.tcp.c)) ∧
    ((st.websocket.enable = true → st.websocket.c = none →
        countA (heal st freshT freshW freshM).2 StartAttempt.httpListen = 1 ∧
        (heal st freshT freshW freshM).1.websocket.c = freshW) ∧
     (st.websocket.c ≠ none →
        countA (heal st freshT freshW freshM).2 StartAttempt.httpListen = 0 ∧
        (heal st freshT freshW freshM).1.websocket.c = st.websocket.c)) ∧
    ((st.mqtt.enable = true → st.mqtt.c = none →
        countA (heal st freshT freshW freshM).2 StartAttempt.mqttConnect = 1 ∧
        (heal st freshT freshW freshM).1.mqtt.c = freshM) ∧
     (st.mqtt.c ≠ none →
        countA (heal st freshT freshW freshM).2 StartAttempt.mqttConnect = 0 ∧
        (heal st freshT freshW freshM).1.mqtt.c = st.mqtt.c)) := by
  refine ⟨⟨?_, ?_⟩, ⟨?_, ?_⟩, ⟨?_, ?_⟩⟩
  · intro he hc
    simp [heal, countA_append, ensureEp_down st.tcp freshT _ he hc,
      countA_ensureEp_ne, countA]
  · intro hc
    simp [heal, countA_append, ensureEp_up st.tcp freshT _ hc,
      countA_ensureEp_ne, countA]
  · intro he hc
    simp [heal, countA_append, ensureEp_down st.websocket freshW _ he hc,
      countA_ensureEp_ne, countA]
  · intro hc
    simp [heal, countA_append, ensureEp_up st.websocket freshW _ hc,
      countA_ensureEp_ne, countA]
  · intro he hc
    simp [heal, countA_append, ensureEp_down st.mqtt freshM _ he hc,
      countA_ensureEp_ne, countA]
  · intro hc
    simp [heal, countA_append, ensureEp_up st.mqtt freshM _ hc,
      countA_ensureEp_ne, countA]

/-- Witness for C4 at a concrete state: TCP is down and enabled (one
tcpListen attempt, handle stored), WebSocket and MQTT are already up (no
attempt, handles unchanged). -/
theorem claim4_ensure_up_w :
    (countA (heal sampleState (some 7) none none).2 StartAttempt.tcpListen = 1 ∧
     (heal sampleState (some 7) none none).1.tcp.c = some 7) ∧
    (countA (heal sampleState (some 7) none none).2 StartAttempt.httpListen = 0 ∧
     (heal sampleState (some 7) none none).1.websocket.c = some 2) ∧
    (countA (heal sampleState (some 7) none none).2 StartAttempt.mqttConnect = 0 ∧
     (heal sampleState (some 7) none none).1.mqtt.c = some 3) :=
  ⟨(claim4_ensure_up sampleState (some 7) none none).1.1 (by decide) (by decide),
   ⟨((claim4_ensure_up sampleState (some 7) none none).2.1.2 (by decide)).1,
    ((claim4_ensure_up sampleState (some 7) none none).2.1.2 (by decide)).2.trans (by decide)⟩,
   ⟨((claim4_ensure_up sampleState (some 7) none none).2.2.2 (by decide)).1,
    ((claim4_ensure_up sampleState (some 7) none none).2.2.2 (by decide)).2.trans (by decide)⟩⟩

/-- Claim C5: a transport whose enabled flag is false is never started by
the healing step, on any tick, regardless of prior state — including a
previously-up endpoint whose handle was cleared by a close event. -/
theorem claim5_disabled (e : Endpoint) (a : StartAttempt) (evs : List EpEvent)
    (h : e.enable = false) : (runEp e a evs).2 = [] := by
  induction evs generalizing e with
  | nil => rfl
  | cons ev rest ih =>
    have h2 : ((stepEp e a ev).1).enable = false := by
      rw [stepEp_enable]
      exact h
    have hstep : (stepEp e a ev).2 = [] := by
      cases ev with
      | tick fresh => simp [stepEp, ensureEp, h]
      | closeEvt => rfl
    simp [runEp, hstep, ih _ h2]

/-- Witness for C5: a disabled endpoint that still holds a handle, run
through a tick, a close event (clearing the handle) and another tick —
no start attempt is ever issued. -/
theorem claim5_disabled_w :
    disabledEp.enable = false ∧
    (runEp disabledEp StartAttempt.tcpListen
      [EpEvent.tick (some 9), EpEvent.closeEvt, EpEvent.tick (some 10)]).2 = [] :=
  ⟨rfl, claim5_disabled disabledEp StartAttempt.tcpListen
    [EpEvent.tick (some 9), EpEvent.closeEvt, EpEvent.tick (some 10)] rfl⟩

/-- Claim C6 counterexample: the MQTT data-received handler forwards the
payload but does NOT discard the connection's buffered receive data — a
connection entering `mq_fn` with a non-empty `recv` leaves with it intact,
contradicting "length reset to zero" for the MQTT case. -/
theorem claim6_cex :
    (mq_fn { label := 'M', is_listening := false, recv := [1, 2, 3] }
        sampleState (Event.mqttMsg [7])).1.recv ≠ [] := by
  decide

/-- Claim C6 (amended): on a WebSocket-message or TCP-read event the
handler forwards the entire received payload to the serial write and then
resets the connection's buffered receive data to zero; on an MQTT-message
event the handler forwards the entire payload to the serial write but
leaves the connection's buffered receive data untouched (frame consumption
is left to the substrate). -/
theorem claim6_data_events (c : Conn) (st : SState) (d : List Nat) :
    ws_fn c st (Event.wsMsg d) =
      ({ c with recv := [] }, st, [Action.uartWrite d]) ∧
    tcp_fn c st Event.evRead =
      ({ c with recv := [] }, st, [Action.uartWrite c.recv]) ∧
    mq_fn c st (Event.mqttMsg d) = (c, st, [Action.uartWrite d]) :=
  ⟨rfl, rfl, rfl⟩

/-- Claim C7: in a tick whose serial read returns zero or a negative
length, the bridge performs no broadcast and no send on any connection —
zero and negative are treated identically. -/
theorem claim7_no_send (st : SState) (freshT freshW freshM : Option Nat)
    (conns : List Conn) (len : Int) (buf : List Nat) (h : len ≤ 0) :
    (timer_fn st freshT freshW freshM conns len buf).2.2 = [] := by
  simp [timer_fn, show ¬(0 : Int) < len by omega]

/-- Witness for C7 at concrete inputs: read lengths 0 and -1 over a tagged
connection both produce no sends. -/
theorem claim7_no_send_w :
    ((0 : Int) ≤ 0 ∧
      (timer_fn sampleState none none none
        [{ label := 'T', is_listening := false, recv := [] }] 0 [42]).2.2 = []) ∧
    ((-1 : Int) ≤ 0 ∧
      (timer_fn sampleState none none none
        [{ label := 'T', is_listening := false, recv := [] }] (-1) [42]).2.2 = []) :=
  ⟨⟨by decide, claim7_no_send sampleState none none none
      [{ label := 'T', is_listening := false, recv := [] }] 0 [42] (by decide)⟩,
   ⟨by decide, claim7_no_send sampleState none none none
      [{ label := 'T', is_listening := false, recv := [] }] (-1) [42] (by decide)⟩⟩

/-- Claim C8: the comma-free MQTT address `"mqtt://host:1883"` resolves to
the default topics RX = `"b/rx"` and TX = `"b/tx"`. -/
theorem claim8_defaults :
    mqtt_rx_topic "mqtt://host:1883".toList = "b/rx".toList ∧
    mqtt_tx_topic "mqtt://host:1883".toList = "b/tx".toList := by
  constructor <;> decide

/-- Claim C9: the TCP open handler tags every connection it receives an
open event for, the listening connection included (it performs no
`is_listening` check), so once the listener is open, every positive serial
read also issues a raw send on the TCP listening connection. -/
theorem claim9_listener_tagged (st st2 : SState)
    (freshT freshW freshM : Option Nat) (conns : List Conn) (len : Int)
    (buf : List Nat) (h : 0 < len) :
    ((tcp_fn listenerConn st Event.evOpen).1.label = 'T' ∧
     (tcp_fn listenerConn st Event.evOpen).1.is_listening = true) ∧
    Action.tcpSend buf ∈
      (timer_fn st2 freshT freshW freshM
        ((tcp_fn listenerConn st Event.evOpen).1 :: conns) len buf).2.2 := by
  refine ⟨⟨rfl, rfl⟩, ?_⟩
  have hc : (tcp_fn listenerConn st Event.evOpen).1 =
      { label := 'T', is_listening := true, recv := [] } := rfl
  simp only [timer_fn, if_pos h, hc, List.flatMap_cons]
  rw [sendsFor_cases]
  simp

/-- Witness for C9 at a concrete input: after the open event on the
listening connection, a tick with read length 1 and byte 42 issues a raw
TCP send on that listening connection. -/
theorem claim9_listener_tagged_w :
    (tcp_fn listenerConn sampleState Event.evOpen).1.label = 'T' ∧
    Action.tcpSend [42] ∈
      (timer_fn sampleState none none none
        [(tcp_fn listenerConn sampleState Event.evOpen).1] 1 [42]).2.2 :=
  ⟨(claim9_listener_tagged sampleState sampleState none none none [] 1 [42]
      (by decide)).1.1,
   (claim9_listener_tagged sampleState sampleState none none none [] 1 [42]
      (by decide)).2⟩

/-- Claim C10: for every MQTT address containing exactly one comma, the
first-comma and last-comma positions coincide, so the resolved TX topic is
the one-character string `","`. -/
theorem claim10_single_comma (url : List Char) (h : countCh url ',' = 1) :
    mqtt_tx_topic url = [','] := by
  rcases countCh_one_idx h with ⟨i, h1, h2⟩
  have hd := head_drop_firstIdxOf h1
  simp only [mqtt_tx_topic, h1, h2]
  have hone : i - i + 1 = 1 := by omega
  rw [hone]
  cases hdrop : url.drop i with
  | nil =>
    rw [hdrop] at hd
    simp at hd
  | cons a t =>
    rw [hdrop] at hd
    simp only [List.head?_cons, Option.some.injEq] at hd
    subst hd
    rfl

/-- Witness for C10 at a concrete input: the single-comma address
`"a,b"`. -/
theorem claim10_single_comma_w :
    countCh "a,b".toList ',' = 1 ∧ mqtt_tx_topic "a,b".toList = [','] :=
  ⟨by decide, claim10_single_comma "a,b".toList (by decide)⟩

end UartBridge
